import Mathlib

/-!
Verification development for the embedded-PostgreSQL lifecycle layer.

We give a shallow embedding of the two core source files:

* `src/backend/embedded/pgembedded.c` — the execution façade
  (`pg_embedded_exec`, `pg_embedded_begin`, `pg_embedded_commit`,
  `pg_embedded_rollback`, `pg_embedded_shutdown`,
  `pg_embedded_free_result`) over the global state
  `pg_initialized` / transaction flag / `pg_error_msg`;

* `src/backend/embedded/initdb_simple.c` — the directory bootstrapper
  (`pg_embedded_initdb_main`) over an abstract filesystem, including the
  BKI token substitution and the stdin redirection around
  `BootstrapModeMain`.

Engine-internal behaviour (SPI, transaction machinery, the bootstrap
interpreter, the filesystem) is modelled by explicit oracles: each call
into the engine is a field of an oracle structure stating whether the
call succeeds, raises an error (the `PG_CATCH` path), and what data it
returns.  The definitions follow the C sources statement by statement.
-/

/-- Engine-level operations the façade can invoke, recorded as a trace so
that "performs no engine operation" and "uses the non-terminating exit
path" are statable. -/
inductive EngOp where
  | startTx
  | spiConnect
  | spiExec
  | spiFinish
  | commitTx
  | abortTx
  | pushSnapshot
  | popSnapshot
  | shmemExit
  | procExit
  deriving DecidableEq, Repr

/-- The process-wide state of pgembedded.c: the `pg_initialized` flag, the
engine transaction flag observed through `IsTransactionState()`, and the
shared error buffer `pg_error_msg`. -/
structure PgState where
  pg_initialized : Bool
  txOpen : Bool
  pg_error_msg : String
  deriving DecidableEq, Repr

/-- The tuple table SPI exposes after a row-returning statement
(`SPI_tuptable`): column names from the tuple descriptor and a row-major
grid of cell values, where `none` is a SQL NULL (`SPI_getvalue` returned
a null pointer). -/
structure SpiTable where
  colnames : List String
  rows : List (List (Option String))
  deriving DecidableEq, Repr

/-- Outcome of `SPI_execute`: either an engine exception (caught by
`PG_CATCH`) carrying its message, or a return with a status code,
`SPI_processed`, and optionally `SPI_tuptable`. -/
inductive SpiExecOutcome where
  | raises (msg : String)
  | returns (code : Int) (processed : Nat) (table : Option SpiTable)
  deriving DecidableEq, Repr

/-- Oracle for the engine collaborator: what each engine entry point does
when the façade calls it. -/
structure EngineBehavior where
  /-- `StartTransactionCommand` raises with this message, if any. -/
  startRaises : Option String
  /-- `SPI_connect` returns `SPI_OK_CONNECT`. -/
  spiConnectOk : Bool
  /-- Outcome of `SPI_execute`. -/
  spiExec : SpiExecOutcome
  /-- `CommitTransactionCommand` raises with this message, if any. -/
  commitRaises : Option String
  /-- `AbortCurrentTransaction` raises (swallowed by rollback's catch). -/
  abortRaises : Bool
  /-- `shmem_exit(0)` raises during cleanup (swallowed by shutdown). -/
  cleanupRaises : Bool

/-- Oracle for `malloc` inside `pg_embedded_exec`: whether each
allocation of the result structure and its arrays succeeds. -/
structure AllocOracle where
  resultOk : Bool
  colnamesOk : Bool
  valuesOk : Bool
  rowOk : Nat → Bool

/-- The `pg_result` structure of pgembedded.h.  `colnames` and `values`
are nullable arrays (`none` = null pointer); individual entries are
nullable too (`none` = null pointer, which for a cell is the explicit
SQL-NULL marker). -/
structure pg_result where
  status : Int
  rows : Nat
  cols : Nat
  colnames : Option (List (Option String))
  values : Option (List (Option (List (Option String))))
  deriving DecidableEq, Repr

/-- Copying one column value out of the tuple table: `SPI_getvalue`
returning NULL stores a null cell pointer; otherwise the string is
`strdup`ed into caller-owned memory. -/
def copyCell (v : Option String) : Option String :=
  match v with
  | none => none
  | some s => some s

/-- Copying the column-name array: each name is `strdup`ed. -/
def copyColnames (names : List String) : List (Option String) :=
  names.map (fun s => some s)

/-- Copying the row arrays; `alloc.rowOk r` is whether the `malloc` of
row `r`'s cell array succeeds.  `none` means a mid-copy allocation
failure (the C code frees the partial result and returns NULL). -/
def copyRows (alloc : AllocOracle) (idx : Nat) :
    List (List (Option String)) → Option (List (Option (List (Option String))))
  | [] => some []
  | r :: rest =>
    if alloc.rowOk idx then
      match copyRows alloc (idx + 1) rest with
      | none => none
      | some rs => some (some (r.map copyCell) :: rs)
    else
      none

/-- The tail of `pg_embedded_exec` after a successful `SPI_execute`:
`SPI_finish`, `PopActiveSnapshot`, and — in auto-commit mode — the
`CommitTransactionCommand` whose exception is caught by `PG_CATCH`
(message `Query failed: …`, unconditional abort, status `-1`). -/
def finishExec (st1 : PgState) (eng : EngineBehavior) (implicit_tx : Bool)
    (res : pg_result) (tr : List EngOp) : PgState × Option pg_result × List EngOp :=
  if implicit_tx then
    match eng.commitRaises with
    | some m =>
      ({ st1 with pg_error_msg := "Query failed: " ++ m, txOpen := false },
       some { res with status := -1 },
       tr ++ [.spiFinish, .popSnapshot, .commitTx, .abortTx])
    | none =>
      ({ st1 with txOpen := false }, some res,
       tr ++ [.spiFinish, .popSnapshot, .commitTx])
  else
    (st1, some res, tr ++ [.spiFinish, .popSnapshot])

/-- Model of `pg_embedded_exec` (pgembedded.c).  Returns the new global
state, the returned `pg_result` pointer (`none` = NULL), and the trace
of engine operations performed. -/
def pg_embedded_exec (st : PgState) (eng : EngineBehavior) (alloc : AllocOracle)
    (query : Option String) : PgState × Option pg_result × List EngOp :=
  if st.pg_initialized = false then
    ({ st with pg_error_msg := "Not initialized" }, none, [])
  else
    match query with
    | none => ({ st with pg_error_msg := "NULL query" }, none, [])
    | some _ =>
      if alloc.resultOk = false then
        ({ st with pg_error_msg := "Out of memory" }, none, [])
      else
        -- memset(result, 0, sizeof(pg_result))
        let result0 : pg_result :=
          { status := 0, rows := 0, cols := 0, colnames := none, values := none }
        let implicit_tx : Bool := !st.txOpen
        -- PG_TRY: StartTransactionCommand iff not already in a transaction
        match (if implicit_tx then eng.startRaises else none) with
        | some m =>
          -- PG_CATCH: capture message, abort, return result with status -1
          ({ st with pg_error_msg := "Query failed: " ++ m, txOpen := false },
           some { result0 with status := -1 }, [.startTx, .abortTx])
        | none =>
          let st1 : PgState := { st with txOpen := true }
          let tr0 : List EngOp :=
            (if implicit_tx then [EngOp.startTx] else []) ++ [.pushSnapshot, .spiConnect]
          if eng.spiConnectOk = false then
            ({ st1 with pg_error_msg := "SPI_connect failed",
                        txOpen := if implicit_tx then false else st1.txOpen },
             some { result0 with status := -1 },
             tr0 ++ [.popSnapshot] ++ (if implicit_tx then [EngOp.abortTx] else []))
          else
            match eng.spiExec with
            | .raises m =>
              -- PG_CATCH: message, unconditional AbortCurrentTransaction
              ({ st1 with pg_error_msg := "Query failed: " ++ m, txOpen := false },
               some { result0 with status := -1 }, tr0 ++ [.spiExec, .abortTx])
            | .returns code processed table =>
              let resultA : pg_result :=
                { status := code, rows := processed, cols := 0,
                  colnames := none, values := none }
              if code < 0 then
                ({ st1 with
                     pg_error_msg := "Query execution failed with code: " ++ toString code,
                     txOpen := if implicit_tx then false else st1.txOpen },
                 some resultA,
                 tr0 ++ [.spiExec, .popSnapshot] ++
                   (if implicit_tx then [EngOp.abortTx] else []))
              else
                match (if 0 < code then table else none) with
                | some t =>
                  if alloc.colnamesOk = false then
                    -- malloc(colnames) failed: free partial result, return NULL
                    ({ st1 with pg_error_msg := "Out of memory" }, none,
                     tr0 ++ [.spiExec])
                  else
                    let resultB : pg_result :=
                      { resultA with cols := t.colnames.length,
                                     colnames := some (copyColnames t.colnames) }
                    if alloc.valuesOk = false then
                      ({ st1 with pg_error_msg := "Out of memory" }, none,
                       tr0 ++ [.spiExec])
                    else
                      match copyRows alloc 0 t.rows with
                      | none =>
                        ({ st1 with pg_error_msg := "Out of memory" }, none,
                         tr0 ++ [.spiExec])
                      | some vals =>
                        finishExec st1 eng implicit_tx
                          { resultB with values := some vals }
                          (tr0 ++ [.spiExec])
                | none =>
                  finishExec st1 eng implicit_tx resultA (tr0 ++ [.spiExec])

/-- Model of `pg_embedded_begin`. -/
def pg_embedded_begin (st : PgState) (eng : EngineBehavior) :
    PgState × Int × List EngOp :=
  if st.pg_initialized = false then
    ({ st with pg_error_msg := "Not initialized" }, -1, [])
  else if st.txOpen then
    ({ st with pg_error_msg := "Already in transaction" }, -1, [])
  else
    match eng.startRaises with
    | some m =>
      ({ st with pg_error_msg := "BEGIN failed: " ++ m, txOpen := false },
       -1, [.startTx, .abortTx])
    | none =>
      ({ st with txOpen := true }, 0, [.startTx])

/-- Model of `pg_embedded_commit`. -/
def pg_embedded_commit (st : PgState) (eng : EngineBehavior) :
    PgState × Int × List EngOp :=
  if st.pg_initialized = false then
    ({ st with pg_error_msg := "Not initialized" }, -1, [])
  else if st.txOpen = false then
    ({ st with pg_error_msg := "Not in transaction" }, -1, [])
  else
    match eng.commitRaises with
    | some m =>
      ({ st with pg_error_msg := "COMMIT failed: " ++ m, txOpen := false },
       -1, [.commitTx, .abortTx])
    | none =>
      ({ st with txOpen := false }, 0, [.commitTx])

/-- Model of `pg_embedded_rollback`.  The `PG_CATCH` around
`AbortCurrentTransaction` only calls `FlushErrorState()`: an exception
during the abort is swallowed (no error-message write, return 0), so the
result does not depend on `eng.abortRaises`. -/
def pg_embedded_rollback (st : PgState) (eng : EngineBehavior) :
    PgState × Int × List EngOp :=
  if st.pg_initialized = false then
    ({ st with pg_error_msg := "Not in transaction" }, -1, [])
  else if st.txOpen = false then
    ({ st with pg_error_msg := "Not in transaction" }, -1, [])
  else
    -- AbortCurrentTransaction; PG_CATCH { FlushErrorState(); }
    match eng.abortRaises with
    | true => ({ st with txOpen := false }, 0, [.abortTx])
    | false => ({ st with txOpen := false }, 0, [.abortTx])

/-- Model of `pg_embedded_shutdown`: silent no-op when not initialized;
otherwise runs the cleanup hook chain through `shmem_exit(0)` (the
non-terminating path — not `proc_exit`), swallows any exception
(`PG_CATCH { FlushErrorState(); }` touches neither the error buffer nor
the return), and clears `pg_initialized`. -/
def pg_embedded_shutdown (st : PgState) (eng : EngineBehavior) :
    PgState × List EngOp :=
  if st.pg_initialized = false then
    (st, [])
  else
    match eng.cleanupRaises with
    | true => ({ st with pg_initialized := false }, [.shmemExit])
    | false => ({ st with pg_initialized := false }, [.shmemExit])

example :
    (pg_embedded_exec ⟨true, false, ""⟩
      { startRaises := none, spiConnectOk := true,
        spiExec := .returns 5 1 (some ⟨["a"], [[some "x", none]]⟩),
        commitRaises := none, abortRaises := false, cleanupRaises := false }
      { resultOk := true, colnamesOk := true, valuesOk := true, rowOk := fun _ => true }
      (some "SELECT 1")).1.txOpen = false := by decide

example :
    (pg_embedded_exec ⟨true, false, ""⟩
      { startRaises := none, spiConnectOk := true,
        spiExec := .returns 5 1 (some ⟨["a"], [[some "x", none]]⟩),
        commitRaises := none, abortRaises := false, cleanupRaises := false }
      { resultOk := true, colnamesOk := false, valuesOk := true, rowOk := fun _ => true }
      (some "SELECT 1")).1.txOpen = true := by decide

/-! ## Token substitution over the bootstrap template (initdb_simple.c) -/

/-- The parameters the substitution draws on: compile-time constants
(`NAMEDATALEN`, `sizeof(void*)`), the session username, the numeric code
`pg_char_to_encoding` resolved for the encoding, and the locale string. -/
structure SubstParams where
  namedatalen : Nat
  sizeofPointer : Nat
  username : String
  encId : Int
  locale : String

/-- Token substitution over one template line, mirroring the
character-by-character `strncmp` prefix scan of
`pg_embedded_initdb_main` in its source order: NAMEDATALEN,
SIZEOF_POINTER, ALIGNOF_POINTER, POSTGRES, ENCODING, LC_COLLATE,
LC_CTYPE, DATLOCALE, ICU_RULES, LOCALE_PROVIDER. -/
def substLine (p : SubstParams) : List Char → List Char
  | [] => []
  | c :: cs =>
    if "NAMEDATALEN".toList.isPrefixOf (c :: cs) then
      (toString p.namedatalen).toList ++ substLine p (cs.drop 10)
    else if "SIZEOF_POINTER".toList.isPrefixOf (c :: cs) then
      (toString p.sizeofPointer).toList ++ substLine p (cs.drop 13)
    else if "ALIGNOF_POINTER".toList.isPrefixOf (c :: cs) then
      (if p.sizeofPointer = 4 then "i" else "d").toList ++ substLine p (cs.drop 14)
    else if "POSTGRES".toList.isPrefixOf (c :: cs) then
      p.username.toList ++ substLine p (cs.drop 7)
    else if "ENCODING".toList.isPrefixOf (c :: cs) then
      (toString p.encId).toList ++ substLine p (cs.drop 7)
    else if "LC_COLLATE".toList.isPrefixOf (c :: cs) then
      p.locale.toList ++ substLine p (cs.drop 9)
    else if "LC_CTYPE".toList.isPrefixOf (c :: cs) then
      p.locale.toList ++ substLine p (cs.drop 7)
    else if "DATLOCALE".toList.isPrefixOf (c :: cs) then
      "_null_".toList ++ substLine p (cs.drop 8)
    else if "ICU_RULES".toList.isPrefixOf (c :: cs) then
      "_null_".toList ++ substLine p (cs.drop 8)
    else if "LOCALE_PROVIDER".toList.isPrefixOf (c :: cs) then
      "c".toList ++ substLine p (cs.drop 14)
    else
      c :: substLine p cs
termination_by l => l.length
decreasing_by
  all_goals (simp [List.length_drop]; try omega)

/-- Modelled from the spec: the same literal prefix substitution but with
the recognized tokens checked in an order where every longer token is
tested before any shorter one (a declarative longest-token-first table),
so that at any position where several tokens could match, the longer,
more specific token wins. -/
def substLineSpec (p : SubstParams) : List Char → List Char
  | [] => []
  | c :: cs =>
    if "ALIGNOF_POINTER".toList.isPrefixOf (c :: cs) then
      (if p.sizeofPointer = 4 then "i" else "d").toList ++ substLineSpec p (cs.drop 14)
    else if "LOCALE_PROVIDER".toList.isPrefixOf (c :: cs) then
      "c".toList ++ substLineSpec p (cs.drop 14)
    else if "SIZEOF_POINTER".toList.isPrefixOf (c :: cs) then
      (toString p.sizeofPointer).toList ++ substLineSpec p (cs.drop 13)
    else if "NAMEDATALEN".toList.isPrefixOf (c :: cs) then
      (toString p.namedatalen).toList ++ substLineSpec p (cs.drop 10)
    else if "LC_COLLATE".toList.isPrefixOf (c :: cs) then
      p.locale.toList ++ substLineSpec p (cs.drop 9)
    else if "DATLOCALE".toList.isPrefixOf (c :: cs) then
      "_null_".toList ++ substLineSpec p (cs.drop 8)
    else if "ICU_RULES".toList.isPrefixOf (c :: cs) then
      "_null_".toList ++ substLineSpec p (cs.drop 8)
    else if "POSTGRES".toList.isPrefixOf (c :: cs) then
      p.username.toList ++ substLineSpec p (cs.drop 7)
    else if "ENCODING".toList.isPrefixOf (c :: cs) then
      (toString p.encId).toList ++ substLineSpec p (cs.drop 7)
    else if "LC_CTYPE".toList.isPrefixOf (c :: cs) then
      p.locale.toList ++ substLineSpec p (cs.drop 7)
    else
      c :: substLineSpec p cs
termination_by l => l.length
decreasing_by
  all_goals (simp [List.length_drop]; try omega)

example :
    substLine ⟨64, 8, "u", 6, "C"⟩ "ENCODING = ENCODING".toList
      = "6 = 6".toList := by
  simp [substLine]
  decide

/-- Two lists that are both prefixes of the same list are comparable:
one is a prefix of the other. -/
theorem isPrefixOf_comparable : ∀ (x a b : List Char),
    a.isPrefixOf x = true → b.isPrefixOf x = true →
    a.isPrefixOf b = true ∨ b.isPrefixOf a = true := by
  intro x
  induction x with
  | nil =>
    intro a b ha hb
    cases a with
    | nil => left; simp [List.isPrefixOf]
    | cons a0 as => simp [List.isPrefixOf] at ha
  | cons x0 xs ih =>
    intro a b ha hb
    cases a with
    | nil => left; simp [List.isPrefixOf]
    | cons a0 as =>
      cases b with
      | nil => right; simp [List.isPrefixOf]
      | cons b0 bs =>
        simp only [List.isPrefixOf, Bool.and_eq_true, beq_iff_eq] at ha hb ⊢
        rcases ha with ⟨ha0, ha1⟩
        rcases hb with ⟨hb0, hb1⟩
        rcases ih as bs ha1 hb1 with h | h
        · exact Or.inl ⟨ha0.trans hb0.symm, h⟩
        · exact Or.inr ⟨hb0.trans ha0.symm, h⟩

/-- If `a` matches at a position and `b` is incomparable with `a`, then
`b` cannot match at that position. -/
theorem not_prefixOf_of_match (x a b : List Char) (ha : a.isPrefixOf x = true)
    (hab : a.isPrefixOf b = false) (hba : b.isPrefixOf a = false) :
    b.isPrefixOf x = false := by
  cases hb : b.isPrefixOf x with
  | false => rfl
  | true =>
    rcases isPrefixOf_comparable x a b ha hb with h | h
    · rw [h] at hab; cases hab
    · rw [h] at hba; cases hba

/-- C7: Token substitution over the bootstrap template uses literal
prefix matching with the longer/more specific token checked before any
shorter overlapping one: the substitution implemented by the source's
`strncmp` chain coincides, on every template line, with the substitution
that tests the recognized tokens longest-first, so wherever both a
shorter and a longer token could match, the longer token's substitution
is the one applied. -/
theorem substLine_eq_substLineSpec (p : SubstParams) (l : List Char) :
    substLine p l = substLineSpec p l := by
  generalize hn : l.length = n
  induction n using Nat.strong_induction_on generalizing l with
  | _ n ih =>
  cases l with
  | nil => simp [substLine, substLineSpec]
  | cons c cs =>
    simp only [List.length_cons] at hn
    by_cases h1 : "NAMEDATALEN".toList.isPrefixOf (c :: cs) = true
    · have nA : "ALIGNOF_POINTER".toList.isPrefixOf (c :: cs) = false :=
        not_prefixOf_of_match _ "NAMEDATALEN".toList _ h1 (by decide) (by decide)
      have nLP : "LOCALE_PROVIDER".toList.isPrefixOf (c :: cs) = false :=
        not_prefixOf_of_match _ "NAMEDATALEN".toList _ h1 (by decide) (by decide)
      have nS : "SIZEOF_POINTER".toList.isPrefixOf (c :: cs) = false :=
        not_prefixOf_of_match _ "NAMEDATALEN".toList _ h1 (by decide) (by decide)
      have hrec := ih (cs.drop 10).length (by simp [List.length_drop]; omega) (cs.drop 10) rfl
      simp only [substLine, substLineSpec, h1, nA, nLP, nS, hrec, Bool.false_eq_true, if_true, if_false]
    · by_cases h2 : "SIZEOF_POINTER".toList.isPrefixOf (c :: cs) = true
      · have nA : "ALIGNOF_POINTER".toList.isPrefixOf (c :: cs) = false :=
          not_prefixOf_of_match _ "SIZEOF_POINTER".toList _ h2 (by decide) (by decide)
        have nLP : "LOCALE_PROVIDER".toList.isPrefixOf (c :: cs) = false :=
          not_prefixOf_of_match _ "SIZEOF_POINTER".toList _ h2 (by decide) (by decide)
        have hrec := ih (cs.drop 13).length (by simp [List.length_drop]; omega) (cs.drop 13) rfl
        simp only [substLine, substLineSpec, h1, h2, nA, nLP, hrec, Bool.false_eq_true, if_true, if_false]
      · by_cases h3 : "ALIGNOF_POINTER".toList.isPrefixOf (c :: cs) = true
        · have hrec := ih (cs.drop 14).length (by simp [List.length_drop]; omega) (cs.drop 14) rfl
          simp only [substLine, substLineSpec, h1, h2, h3, hrec, Bool.false_eq_true, if_true, if_false]
        · by_cases h4 : "POSTGRES".toList.isPrefixOf (c :: cs) = true
          · have nLP : "LOCALE_PROVIDER".toList.isPrefixOf (c :: cs) = false :=
              not_prefixOf_of_match _ "POSTGRES".toList _ h4 (by decide) (by decide)
            have nLCC : "LC_COLLATE".toList.isPrefixOf (c :: cs) = false :=
              not_prefixOf_of_match _ "POSTGRES".toList _ h4 (by decide) (by decide)
            have nD : "DATLOCALE".toList.isPrefixOf (c :: cs) = false :=
              not_prefixOf_of_match _ "POSTGRES".toList _ h4 (by decide) (by decide)
            have nI : "ICU_RULES".toList.isPrefixOf (c :: cs) = false :=
              not_prefixOf_of_match _ "POSTGRES".toList _ h4 (by decide) (by decide)
            have hrec := ih (cs.drop 7).length (by simp [List.length_drop]; omega) (cs.drop 7) rfl
            simp only [substLine, substLineSpec, h1, h2, h3, h4, nLP, nLCC, nD, nI, hrec, Bool.false_eq_true, if_true, if_false]
          · by_cases h5 : "ENCODING".toList.isPrefixOf (c :: cs) = true
            · have nLP : "LOCALE_PROVIDER".toList.isPrefixOf (c :: cs) = false :=
                not_prefixOf_of_match _ "ENCODING".toList _ h5 (by decide) (by decide)
              have nLCC : "LC_COLLATE".toList.isPrefixOf (c :: cs) = false :=
                not_prefixOf_of_match _ "ENCODING".toList _ h5 (by decide) (by decide)
              have nD : "DATLOCALE".toList.isPrefixOf (c :: cs) = false :=
                not_prefixOf_of_match _ "ENCODING".toList _ h5 (by decide) (by decide)
              have nI : "ICU_RULES".toList.isPrefixOf (c :: cs) = false :=
                not_prefixOf_of_match _ "ENCODING".toList _ h5 (by decide) (by decide)
              have hrec := ih (cs.drop 7).length (by simp [List.length_drop]; omega) (cs.drop 7) rfl
              simp only [substLine, substLineSpec, h1, h2, h3, h4, h5, nLP, nLCC, nD, nI, hrec, Bool.false_eq_true, if_true, if_false]
            · by_cases h6 : "LC_COLLATE".toList.isPrefixOf (c :: cs) = true
              · have nLP : "LOCALE_PROVIDER".toList.isPrefixOf (c :: cs) = false :=
                  not_prefixOf_of_match _ "LC_COLLATE".toList _ h6 (by decide) (by decide)
                have hrec := ih (cs.drop 9).length (by simp [List.length_drop]; omega) (cs.drop 9) rfl
                simp only [substLine, substLineSpec, h1, h2, h3, h4, h5, h6, nLP, hrec, Bool.false_eq_true, if_true, if_false]
              · by_cases h7 : "LC_CTYPE".toList.isPrefixOf (c :: cs) = true
                · have nLP : "LOCALE_PROVIDER".toList.isPrefixOf (c :: cs) = false :=
                    not_prefixOf_of_match _ "LC_CTYPE".toList _ h7 (by decide) (by decide)
                  have nD : "DATLOCALE".toList.isPrefixOf (c :: cs) = false :=
                    not_prefixOf_of_match _ "LC_CTYPE".toList _ h7 (by decide) (by decide)
                  have nI : "ICU_RULES".toList.isPrefixOf (c :: cs) = false :=
                    not_prefixOf_of_match _ "LC_CTYPE".toList _ h7 (by decide) (by decide)
                  have hrec := ih (cs.drop 7).length (by simp [List.length_drop]; omega) (cs.drop 7) rfl
                  simp only [substLine, substLineSpec, h1, h2, h3, h4, h5, h6, h7, nLP, nD, nI, hrec, Bool.false_eq_true, if_true, if_false]
                · by_cases h8 : "DATLOCALE".toList.isPrefixOf (c :: cs) = true
                  · have nLP : "LOCALE_PROVIDER".toList.isPrefixOf (c :: cs) = false :=
                      not_prefixOf_of_match _ "DATLOCALE".toList _ h8 (by decide) (by decide)
                    have hrec := ih (cs.drop 8).length (by simp [List.length_drop]; omega) (cs.drop 8) rfl
                    simp only [substLine, substLineSpec, h1, h2, h3, h4, h5, h6, h7, h8, nLP, hrec, Bool.false_eq_true, if_true, if_false]
                  · by_cases h9 : "ICU_RULES".toList.isPrefixOf (c :: cs) = true
                    · have nLP : "LOCALE_PROVIDER".toList.isPrefixOf (c :: cs) = false :=
                        not_prefixOf_of_match _ "ICU_RULES".toList _ h9 (by decide) (by decide)
                      have hrec := ih (cs.drop 8).length (by simp [List.length_drop]; omega) (cs.drop 8) rfl
                      simp only [substLine, substLineSpec, h1, h2, h3, h4, h5, h6, h7, h8, h9, nLP, hrec, Bool.false_eq_true, if_true, if_false]
                    · by_cases h10 : "LOCALE_PROVIDER".toList.isPrefixOf (c :: cs) = true
                      · have hrec := ih (cs.drop 14).length (by simp [List.length_drop]; omega) (cs.drop 14) rfl
                        simp only [substLine, substLineSpec, h1, h2, h3, h4, h5, h6, h7, h8, h9, h10, hrec, Bool.false_eq_true, if_true, if_false]
                      · have hrec := ih cs.length (by omega) cs rfl
                        simp only [substLine, substLineSpec, h1, h2, h3, h4, h5, h6, h7, h8, h9, h10, hrec, Bool.false_eq_true, if_true, if_false]

/-! ## Directory bootstrapper (initdb_simple.c) -/

/-- Where the process's standard-input channel currently points. -/
inductive Stdin where
  | console
  | file (path : String)
  deriving DecidableEq, Repr

/-- Filesystem-level state seen by `pg_embedded_initdb_main`: the set of
existing paths (directories and files) and the stdin channel. -/
structure IState where
  fs : List String
  stdin : Stdin
  deriving DecidableEq, Repr

/-- Observable events of one initdb run, so that ordering properties
("saved before, restored after, deleted after use") are statable. -/
inductive IEvent where
  | mkdirE (p : String)
  | writeVersion (p : String)
  | writeConfig (p : String)
  | writeScript (p : String) (content : List (List Char))
  | saveStdin
  | redirectStdin (p : String)
  | runBootstrap
  | restoreStdin
  | unlinkE (p : String)
  | warn (msg : String)
  deriving DecidableEq, Repr

/-- Oracle for the filesystem calls: whether `mkdir`, `fopen(…,"w")`,
the write/flush/fsync/fclose sequence and `freopen` succeed, and the
contents `fgets` reads from a file opened for reading (`none` = the
`fopen` failed). -/
structure FsOracle where
  mkdirOk : String → Bool
  openWriteOk : String → Bool
  writeOk : String → Bool
  readFile : String → Option (List (List Char))
  freopenOk : Bool

/-- The engine-collaborator environment of the bootstrapper: the
compile-time constants, the external `pg_char_to_encoding`, the effect
of `BootstrapModeMain` on the filesystem, and whether the bootstrap
interpreter reports success (the C code never inspects this). -/
structure BootEnv where
  namedatalen : Nat
  sizeofPointer : Nat
  charToEncoding : String → Int
  bootstrapFs : List String → List String
  bootstrapOk : Bool

/-- Return of `pg_embedded_initdb_main`: `-1`, `0`, or `exit(1)` (the
fatal process-terminating path on filesystem errors). -/
inductive InitdbRet where
  | err
  | ok
  | fatal
  deriving DecidableEq, Repr

/-- The fixed subdirectory set of initdb_simple.c (`subdirs[]`). -/
def subdirs : List String :=
  ["global", "pg_wal/archive_status", "pg_commit_ts", "pg_dynshmem",
   "pg_notify", "pg_serial", "pg_snapshots", "pg_subtrans", "pg_twophase",
   "pg_multixact", "pg_multixact/members", "pg_multixact/offsets",
   "base", "base/1", "pg_replslot", "pg_tblspc", "pg_stat", "pg_stat_tmp",
   "pg_xact", "pg_logical", "pg_logical/snapshots", "pg_logical/mappings"]

/-- `create_data_directory`: `mkdir(pg_data)`; `EEXIST` is tolerated with
a warning, any other failure is fatal (`exit(1)` = `none`). -/
def create_data_directory (ora : FsOracle) (pg_data : String) (st : IState) :
    Option (IState × List IEvent) :=
  if pg_data ∈ st.fs then
    some (st, [.warn ("directory exists: " ++ pg_data)])
  else if ora.mkdirOk pg_data then
    some ({ st with fs := st.fs.insert pg_data }, [.mkdirE pg_data])
  else
    none

/-- A `mkdir` whose failure — including `EEXIST` — is fatal, as in
`create_xlog_symlink` and `create_subdirectories`. -/
def mkdir_fatal (ora : FsOracle) (p : String) (st : IState) :
    Option (IState × List IEvent) :=
  if p ∈ st.fs then
    none
  else if ora.mkdirOk p then
    some ({ st with fs := st.fs.insert p }, [.mkdirE p])
  else
    none

/-- `create_subdirectories`: each entry of `subdirs` under `pg_data`. -/
def mkSubdirs (ora : FsOracle) (pg_data : String) :
    List String → IState → Option (IState × List IEvent)
  | [], st => some (st, [])
  | d :: ds, st =>
    match mkdir_fatal ora (pg_data ++ "/" ++ d) st with
    | none => none
    | some (st1, ev1) =>
      match mkSubdirs ora pg_data ds st1 with
      | none => none
      | some (st2, ev2) => some (st2, ev1 ++ ev2)

/-- `write_version_file(NULL)`: create `pg_data/PG_VERSION` and write the
major version; any failure of the open/write/fsync/close chain is
fatal. -/
def write_version_file (ora : FsOracle) (pg_data : String) (st : IState) :
    Option (IState × List IEvent) :=
  if ora.openWriteOk (pg_data ++ "/PG_VERSION") then
    if ora.writeOk (pg_data ++ "/PG_VERSION") then
      some ({ st with fs := st.fs.insert (pg_data ++ "/PG_VERSION") },
            [.writeVersion (pg_data ++ "/PG_VERSION")])
    else
      none
  else
    none

/-- `write_empty_config_file(NULL)`: create an empty
`pg_data/postgresql.conf`. -/
def write_empty_config_file (ora : FsOracle) (pg_data : String) (st : IState) :
    Option (IState × List IEvent) :=
  if ora.openWriteOk (pg_data ++ "/postgresql.conf") then
    if ora.writeOk (pg_data ++ "/postgresql.conf") then
      some ({ st with fs := st.fs.insert (pg_data ++ "/postgresql.conf") },
            [.writeConfig (pg_data ++ "/postgresql.conf")])
    else
      none
  else
    none

/-- The path of the BKI template read from the source tree. -/
def bkiSrcPath : String := "src/include/catalog/postgres.bki"

/-- The scratch file the substituted script is written to. -/
def bkiTempPath : String := "/tmp/pg_bootstrap.bki"

/-- The bootstrap block of `pg_embedded_initdb_main`: read the template,
write the token-substituted copy to the scratch file, save stdin
(`dup(STDIN_FILENO)`), redirect stdin to the scratch file (`freopen`),
run `BootstrapModeMain` (its outcome is not inspected), restore stdin
(`dup2`), and `unlink` the scratch file. -/
def bootstrap_phase (ora : FsOracle) (env : BootEnv) (p : SubstParams)
    (st : IState) : Option (IState × List IEvent) :=
  match ora.readFile bkiSrcPath with
  | none => none
  | some lines =>
    if ora.openWriteOk bkiTempPath then
      let content := lines.map (substLine p)
      let st1 : IState := { st with fs := st.fs.insert bkiTempPath }
      let saved := st1.stdin
      if ora.freopenOk then
        let st2 : IState := { st1 with stdin := .file bkiTempPath }
        let st3 : IState := { st2 with fs := env.bootstrapFs st2.fs }
        let st4 : IState := { st3 with stdin := saved }
        let st5 : IState := { st4 with fs := st4.fs.erase bkiTempPath }
        some (st5, [.writeScript bkiTempPath content, .saveStdin,
                    .redirectStdin bkiTempPath, .runBootstrap,
                    .restoreStdin, .unlinkE bkiTempPath])
      else
        none
    else
      none

/-- Model of `pg_embedded_initdb_main` (initdb_simple.c): argument
validation, the `PG_VERSION` idempotence short-circuit, directory and
file creation, and the catalog bootstrap with token substitution. -/
def pg_embedded_initdb_main (st : IState) (ora : FsOracle) (env : BootEnv)
    (data_dir username encoding locale : Option String) :
    InitdbRet × IState × List IEvent :=
  match data_dir, username with
  | some dd, some un =>
    if (dd ++ "/PG_VERSION") ∈ st.fs then
      (.ok, st, [.warn "database directory already initialized"])
    else
      let encoding_g := encoding.getD "UTF8"
      let locale_g := locale.getD "C"
      let p : SubstParams :=
        { namedatalen := env.namedatalen, sizeofPointer := env.sizeofPointer,
          username := un, encId := env.charToEncoding encoding_g,
          locale := locale_g }
      match create_data_directory ora dd st with
      | none => (.fatal, st, [])
      | some (st1, e1) =>
        match mkdir_fatal ora (dd ++ "/pg_wal") st1 with
        | none => (.fatal, st1, e1)
        | some (st2, e2) =>
          match mkSubdirs ora dd subdirs st2 with
          | none => (.fatal, st2, e1 ++ e2)
          | some (st3, e3) =>
            match write_version_file ora dd st3 with
            | none => (.fatal, st3, e1 ++ e2 ++ e3)
            | some (st4, e4) =>
              match write_empty_config_file ora dd st4 with
              | none => (.fatal, st4, e1 ++ e2 ++ e3 ++ e4)
              | some (st5, e5) =>
                match bootstrap_phase ora env p st5 with
                | none => (.fatal, st5, e1 ++ e2 ++ e3 ++ e4 ++ e5)
                | some (st6, e6) =>
                  (.ok, st6, e1 ++ e2 ++ e3 ++ e4 ++ e5 ++ e6)
  | _, _ => (.err, st, [])

/-- An all-succeeding filesystem oracle with an empty template, used for
concrete witness runs. -/
def oraAllOk : FsOracle :=
  { mkdirOk := fun _ => true, openWriteOk := fun _ => true,
    writeOk := fun _ => true, readFile := fun _ => some [],
    freopenOk := true }

/-- An engine environment whose bootstrap leaves the filesystem alone. -/
def envId : BootEnv :=
  { namedatalen := 64, sizeofPointer := 8, charToEncoding := fun _ => 6,
    bootstrapFs := fun f => f, bootstrapOk := true }

example :
    (pg_embedded_initdb_main ⟨[], .console⟩ oraAllOk envId
      (some "/data") (some "u") none none).1 = .ok := by decide

example :
    (pg_embedded_initdb_main ⟨["/data/PG_VERSION"], .console⟩ oraAllOk envId
      (some "/data") (some "u") none none)
      = (.ok, ⟨["/data/PG_VERSION"], .console⟩,
         [.warn "database directory already initialized"]) := by decide

/-! ## Release operation (pg_embedded_free_result) -/

/-- The heap blocks a `pg_result` can own: the struct itself, the column
name array and its entries, the row-pointer array, each row's cell
array, and each cell string. -/
inductive Alloc where
  | top
  | colnamesArr
  | colname (i : Nat)
  | valuesArr
  | rowArr (r : Nat)
  | cell (r c : Nat)
  deriving DecidableEq, Repr

/-- The column-name loop of `pg_embedded_free_result`: free each non-null
entry. -/
def freeColnames (i : Nat) : List (Option String) → List Alloc
  | [] => []
  | none :: rest => freeColnames (i + 1) rest
  | some _ :: rest => Alloc.colname i :: freeColnames (i + 1) rest

/-- The cell loop of `pg_embedded_free_result`: free each non-null cell
of row `r`. -/
def freeCells (r : Nat) (c : Nat) : List (Option String) → List Alloc
  | [] => []
  | none :: rest => freeCells r (c + 1) rest
  | some _ :: rest => Alloc.cell r c :: freeCells r (c + 1) rest

/-- The row loop of `pg_embedded_free_result`: skip null row pointers,
otherwise free the row's non-null cells and then the row array. -/
def freeRows (r : Nat) : List (Option (List (Option String))) → List Alloc
  | [] => []
  | none :: rest => freeRows (r + 1) rest
  | some row :: rest => (freeCells r 0 row ++ [Alloc.rowArr r]) ++ freeRows (r + 1) rest

/-- Model of `pg_embedded_free_result`: the sequence of `free` calls it
performs.  A NULL result pointer (`none`) frees nothing. -/
def pg_embedded_free_result : Option pg_result → List Alloc
  | none => []
  | some res =>
    (match res.colnames with
     | none => []
     | some arr => freeColnames 0 arr ++ [Alloc.colnamesArr]) ++
    (match res.values with
     | none => []
     | some rows => freeRows 0 rows ++ [Alloc.valuesArr]) ++
    [Alloc.top]

/-- Which heap blocks a given (possibly partially populated) `pg_result`
actually owns: exactly the non-null components. -/
def allocatedIn (res : pg_result) : Alloc → Prop
  | .top => True
  | .colnamesArr => res.colnames.isSome = true
  | .colname i => ∃ arr s, res.colnames = some arr ∧ arr[i]? = some (some s)
  | .valuesArr => res.values.isSome = true
  | .rowArr r => ∃ rows row, res.values = some rows ∧ rows[r]? = some (some row)
  | .cell r c => ∃ rows row s, res.values = some rows ∧ rows[r]? = some (some row) ∧
      row[c]? = some (some s)

example :
    pg_embedded_free_result
      (some { status := 5, rows := 2, cols := 2,
              colnames := some [some "a", none],
              values := some [some [some "x", none], none] })
      = [.colname 0, .colnamesArr, .cell 0 0, .rowArr 0, .valuesArr, .top] := by
  decide

/-! ## Claim theorems -/

/-- A concrete engine behaviour for witness runs: a row-returning
statement that succeeds. -/
def engW : EngineBehavior :=
  { startRaises := none, spiConnectOk := true,
    spiExec := .returns 5 1 (some ⟨["a"], [[some "x", none]]⟩),
    commitRaises := none, abortRaises := false, cleanupRaises := false }

/-- A concrete allocation oracle where every `malloc` succeeds. -/
def allocW : AllocOracle :=
  { resultOk := true, colnamesOk := true, valuesOk := true, rowOk := fun _ => true }

/-- C4: in every state other than Initialized (`pg_initialized = false`,
i.e. before a successful start and after shutdown), `execute` returns
NULL, and `begin`, `commit`, `rollback` return `-1`, each setting a
state-error message, leaving the transaction flag untouched, and
performing no engine operation (empty engine trace). -/
theorem state_gated_operations (st : PgState) (eng : EngineBehavior)
    (alloc : AllocOracle) (q : Option String)
    (h : st.pg_initialized = false) :
    pg_embedded_exec st eng alloc q
        = ({ st with pg_error_msg := "Not initialized" }, none, []) ∧
    pg_embedded_begin st eng
        = ({ st with pg_error_msg := "Not initialized" }, -1, []) ∧
    pg_embedded_commit st eng
        = ({ st with pg_error_msg := "Not initialized" }, -1, []) ∧
    pg_embedded_rollback st eng
        = ({ st with pg_error_msg := "Not in transaction" }, -1, []) := by
  refine ⟨?_, ?_, ?_, ?_⟩ <;>
    · cases q <;>
        simp [pg_embedded_exec, pg_embedded_begin, pg_embedded_commit,
              pg_embedded_rollback, h]

theorem state_gated_operations_witness :
    (PgState.pg_initialized ⟨false, false, ""⟩ = false) ∧
    pg_embedded_exec ⟨false, false, ""⟩ engW allocW (some "SELECT 1")
      = (⟨false, false, "Not initialized"⟩, none, []) ∧
    pg_embedded_begin ⟨false, false, ""⟩ engW
      = (⟨false, false, "Not initialized"⟩, -1, []) ∧
    pg_embedded_commit ⟨false, false, ""⟩ engW
      = (⟨false, false, "Not initialized"⟩, -1, []) ∧
    pg_embedded_rollback ⟨false, false, ""⟩ engW
      = (⟨false, false, "Not in transaction"⟩, -1, []) :=
  ⟨by decide,
   state_gated_operations ⟨false, false, ""⟩ engW allocW (some "SELECT 1") (by decide)⟩

/-- C6: `shutdown` in a non-Initialized state is a silent no-op (state
and trace unchanged, no error); otherwise it runs exactly the
non-terminating cleanup hook chain (`shmem_exit`, never `proc_exit`),
marks the state shut down (`pg_initialized = false`), leaves the error
buffer untouched even when cleanup raises, and returns nothing
observable as a failure — for every engine behaviour, including one
whose cleanup raises. -/
theorem shutdown_spec (st : PgState) (eng : EngineBehavior) :
    (st.pg_initialized = false → pg_embedded_shutdown st eng = (st, [])) ∧
    (st.pg_initialized = true →
      (pg_embedded_shutdown st eng).1.pg_initialized = false ∧
      (pg_embedded_shutdown st eng).1.pg_error_msg = st.pg_error_msg ∧
      (pg_embedded_shutdown st eng).2 = [.shmemExit] ∧
      EngOp.procExit ∉ (pg_embedded_shutdown st eng).2) := by
  constructor <;> intro h <;>
    rcases hc : eng.cleanupRaises <;>
      simp [pg_embedded_shutdown, h, hc]

theorem shutdown_spec_witness :
    ((PgState.pg_initialized ⟨false, false, "e"⟩ = false) ∧
      pg_embedded_shutdown ⟨false, false, "e"⟩ engW = (⟨false, false, "e"⟩, [])) ∧
    ((PgState.pg_initialized ⟨true, false, "e"⟩ = true) ∧
      (pg_embedded_shutdown ⟨true, false, "e"⟩ engW).1.pg_initialized = false ∧
      (pg_embedded_shutdown ⟨true, false, "e"⟩ engW).1.pg_error_msg = "e" ∧
      (pg_embedded_shutdown ⟨true, false, "e"⟩ engW).2 = [.shmemExit] ∧
      EngOp.procExit ∉ (pg_embedded_shutdown ⟨true, false, "e"⟩ engW).2) :=
  ⟨⟨by decide, (shutdown_spec ⟨false, false, "e"⟩ engW).1 (by decide)⟩,
   ⟨by decide, (shutdown_spec ⟨true, false, "e"⟩ engW).2 (by decide)⟩⟩

/-- C8: `begin` fails with `-1` and "Already in transaction" when a
transaction is already open, and returns 0 only from the Initialized,
no-transaction state; `commit` fails with `-1` when no transaction is
open; `rollback` fails with `-1` when no transaction is open, and
otherwise always returns 0 and transitions to `NoTransaction`, for
every engine behaviour — in particular swallowing an exception raised
by the abort path (the result does not depend on `abortRaises`, and no
error message is written). -/
theorem txn_control_spec (st : PgState) (eng : EngineBehavior) :
    (st.pg_initialized = true → st.txOpen = true →
      pg_embedded_begin st eng
        = ({ st with pg_error_msg := "Already in transaction" }, -1, [])) ∧
    ((pg_embedded_begin st eng).2.1 = 0 →
      st.pg_initialized = true ∧ st.txOpen = false) ∧
    (st.pg_initialized = true → st.txOpen = false →
      pg_embedded_commit st eng
        = ({ st with pg_error_msg := "Not in transaction" }, -1, [])) ∧
    (st.pg_initialized = true → st.txOpen = false →
      pg_embedded_rollback st eng
        = ({ st with pg_error_msg := "Not in transaction" }, -1, [])) ∧
    (st.pg_initialized = true → st.txOpen = true →
      pg_embedded_rollback st eng = ({ st with txOpen := false }, 0, [.abortTx])) := by
  obtain ⟨ini, tx, msg⟩ := st
  refine ⟨?_, ?_, ?_, ?_, ?_⟩ <;>
    · intro h
      first
        | (intro h2
           subst h h2
           rcases hs : eng.startRaises with _ | m <;>
             rcases ha : eng.abortRaises <;>
               simp [pg_embedded_begin, pg_embedded_commit, pg_embedded_rollback, hs, ha])
        | (cases ini <;> cases tx <;>
             rcases hs : eng.startRaises with _ | m <;>
               simp_all [pg_embedded_begin, hs])

theorem txn_control_spec_witness :
    ((PgState.pg_initialized ⟨true, true, ""⟩ = true) ∧
      (PgState.txOpen ⟨true, true, ""⟩ = true) ∧
      pg_embedded_begin ⟨true, true, ""⟩ engW
        = (⟨true, true, "Already in transaction"⟩, -1, []) ∧
      pg_embedded_rollback ⟨true, true, ""⟩ engW = (⟨true, false, ""⟩, 0, [.abortTx])) ∧
    ((PgState.txOpen ⟨true, false, ""⟩ = false) ∧
      pg_embedded_commit ⟨true, false, ""⟩ engW
        = (⟨true, false, "Not in transaction"⟩, -1, []) ∧
      pg_embedded_rollback ⟨true, false, ""⟩ engW
        = (⟨true, false, "Not in transaction"⟩, -1, [])) :=
  ⟨⟨by decide, by decide,
    (txn_control_spec ⟨true, true, ""⟩ engW).1 (by decide) (by decide),
    (txn_control_spec ⟨true, true, ""⟩ engW).2.2.2.2 (by decide) (by decide)⟩,
   ⟨by decide,
    (txn_control_spec ⟨true, false, ""⟩ engW).2.2.1 (by decide) (by decide),
    (txn_control_spec ⟨true, false, ""⟩ engW).2.2.2.1 (by decide) (by decide)⟩⟩

/-- C1 counterexample: the claim "execute always closes an implicitly
opened transaction before returning (NoTransaction observed after), and
leaves a previously open transaction open" is false on the code at two
concrete inputs.  (i) Initialized, no transaction open, engine succeeds
with one row, but the `malloc` of the column-name array fails: `execute`
returns NULL and the implicitly opened transaction is left open
(`txOpen = true`).  (ii) Initialized, transaction already open, engine
raises during execution: the `PG_CATCH` block calls
`AbortCurrentTransaction` unconditionally, so the caller's open
transaction is closed (`txOpen = false`), not left open. -/
theorem exec_autocommit_counterexample :
    ((pg_embedded_exec ⟨true, false, ""⟩ engW
        { resultOk := true, colnamesOk := false, valuesOk := true,
          rowOk := fun _ => true }
        (some "SELECT 1")).1.txOpen = true ∧
     (pg_embedded_exec ⟨true, false, ""⟩ engW
        { resultOk := true, colnamesOk := false, valuesOk := true,
          rowOk := fun _ => true }
        (some "SELECT 1")).2.1 = none) ∧
    ((pg_embedded_exec ⟨true, true, ""⟩
        { engW with spiExec := .raises "division by zero" } allocW
        (some "SELECT 1/0")).1.txOpen = false) := by
  refine ⟨⟨?_, ?_⟩, ?_⟩ <;> decide

/-- C1 (amended): assuming the `pg_result` struct itself allocates, when
`execute` is called in the Initialized state with no transaction open,
it opens one implicitly and closes it before returning — commit on
success, abort on failure — so the caller observes NoTransaction, in
every case except the mid-copy allocation-failure paths, which are
exactly the paths returning NULL and which leave the implicit
transaction open; when a transaction was already open, it is left open
on every path except an engine exception raised during execution, which
aborts (closes) it. -/
theorem exec_autocommit_amended (st : PgState) (eng : EngineBehavior)
    (alloc : AllocOracle) (q : String)
    (hinit : st.pg_initialized = true) (hres : alloc.resultOk = true) :
    (st.txOpen = false →
      ((pg_embedded_exec st eng alloc (some q)).1.txOpen = true ↔
        (pg_embedded_exec st eng alloc (some q)).2.1 = none)) ∧
    (st.txOpen = true →
      ((pg_embedded_exec st eng alloc (some q)).1.txOpen = false ↔
        (eng.spiConnectOk = true ∧ ∃ m, eng.spiExec = .raises m))) := by
  obtain ⟨ini, tx, msg⟩ := st
  obtain ⟨ro, co, vo, rk⟩ := alloc
  simp only at hinit hres
  subst hinit hres
  constructor <;> intro htx <;> subst htx
  · -- no transaction open: implicit auto-commit path
    rcases hsr : eng.startRaises with _ | m
    · rcases hsc : eng.spiConnectOk
      · simp [pg_embedded_exec, hsr, hsc]
      · rcases hse : eng.spiExec with m | ⟨code, pr, tab⟩
        · simp [pg_embedded_exec, hsr, hsc, hse]
        · by_cases hcode : code < 0
          · simp [pg_embedded_exec, hsr, hsc, hse, hcode]
          · by_cases hpos : 0 < code
            · rcases tab with _ | t
              · rcases hcr : eng.commitRaises with _ | m <;>
                  simp [pg_embedded_exec, finishExec, hsr, hsc, hse, hcode, hpos, hcr]
              · rcases hco : co
                · simp [pg_embedded_exec, hsr, hsc, hse, hcode, hpos, hco]
                · rcases hvo : vo
                  · simp [pg_embedded_exec, hsr, hsc, hse, hcode, hpos, hco, hvo]
                  · rcases hrows : copyRows ⟨true, true, true, rk⟩ 0 t.rows with _ | vals
                    · simp [pg_embedded_exec, hsr, hsc, hse, hcode, hpos, hco, hvo, hrows]
                    · rcases hcr : eng.commitRaises with _ | m <;>
                        simp [pg_embedded_exec, finishExec, hsr, hsc, hse,
                              hcode, hpos, hco, hvo, hrows, hcr]
            · rcases hcr : eng.commitRaises with _ | m <;>
                simp [pg_embedded_exec, finishExec, hsr, hsc, hse, hcode, hpos, hcr]
    · simp [pg_embedded_exec, hsr]
  · -- transaction already open: implicit_tx = false
    rcases hsc : eng.spiConnectOk
    · simp [pg_embedded_exec, hsc]
    · rcases hse : eng.spiExec with m | ⟨code, pr, tab⟩
      · simp [pg_embedded_exec, hsc, hse]
      · by_cases hcode : code < 0
        · simp [pg_embedded_exec, hsc, hse, hcode]
        · by_cases hpos : 0 < code
          · rcases tab with _ | t
            · simp [pg_embedded_exec, finishExec, hsc, hse, hcode, hpos]
            · rcases hco : co
              · simp [pg_embedded_exec, hsc, hse, hcode, hpos, hco]
              · rcases hvo : vo
                · simp [pg_embedded_exec, hsc, hse, hcode, hpos, hco, hvo]
                · rcases hrows : copyRows ⟨true, true, true, rk⟩ 0 t.rows with _ | vals
                  · simp [pg_embedded_exec, hsc, hse, hcode, hpos, hco, hvo, hrows]
                  · simp [pg_embedded_exec, finishExec, hsc, hse,
                          hcode, hpos, hco, hvo, hrows]
          · simp [pg_embedded_exec, finishExec, hsc, hse, hcode, hpos]

theorem exec_autocommit_amended_witness :
    ((PgState.pg_initialized ⟨true, false, ""⟩ = true) ∧
      (AllocOracle.resultOk allocW = true) ∧
      (PgState.txOpen ⟨true, false, ""⟩ = false) ∧
      ((pg_embedded_exec ⟨true, false, ""⟩ engW allocW (some "SELECT 1")).1.txOpen = true ↔
        (pg_embedded_exec ⟨true, false, ""⟩ engW allocW (some "SELECT 1")).2.1 = none)) :=
  ⟨by decide, by decide, by decide,
   (exec_autocommit_amended ⟨true, false, ""⟩ engW allocW "SELECT 1"
      (by decide) (by decide)).1 (by decide)⟩


/-- When the per-row `malloc` always succeeds, the row copy materializes
the whole grid, cell by cell through `copyCell`. -/
theorem copyRows_all_ok (alloc : AllocOracle) (h : ∀ i, alloc.rowOk i = true) :
    ∀ (rows : List (List (Option String))) (idx : Nat),
      copyRows alloc idx rows
        = some (rows.map (fun row => some (row.map copyCell))) := by
  intro rows
  induction rows with
  | nil => intro idx; simp [copyRows]
  | cons r rest ih => intro idx; simp [copyRows, h idx, ih]

/-- In the Initialized state, every path of `execute` that returns NULL
sets the error buffer to "Out of memory": NULL returns happen only on
allocation failure. -/
theorem exec_none_oom (st : PgState) (eng : EngineBehavior)
    (alloc : AllocOracle) (q : String)
    (hinit : st.pg_initialized = true) :
    (pg_embedded_exec st eng alloc (some q)).2.1 = none →
    (pg_embedded_exec st eng alloc (some q)).1.pg_error_msg = "Out of memory" := by
  obtain ⟨ini, tx, msg⟩ := st
  simp only at hinit
  subst hinit
  simp only [pg_embedded_exec, finishExec]
  repeat' split
  all_goals simp_all

/-- C5: in the Initialized state, an engine exception raised during
execution is caught: its message lands in the shared error buffer
prefixed with "Query failed", the transaction in flight (in particular
an implicit auto-commit one) is aborted, and a non-NULL `pg_result`
with negative status `-1` is still returned.  The only paths on which
`execute` returns NULL instead are allocation failures, and each of
them reports "Out of memory" — including the failure to allocate the
`pg_result` struct itself. -/
theorem exec_error_handling (st : PgState) (eng : EngineBehavior)
    (alloc : AllocOracle) (q : String)
    (hinit : st.pg_initialized = true) :
    (∀ m, alloc.resultOk = true → eng.startRaises = none →
      eng.spiConnectOk = true → eng.spiExec = .raises m →
      ∃ res, (pg_embedded_exec st eng alloc (some q)).2.1 = some res ∧
        res.status = -1 ∧
        (pg_embedded_exec st eng alloc (some q)).1.pg_error_msg = "Query failed: " ++ m ∧
        (pg_embedded_exec st eng alloc (some q)).1.txOpen = false) ∧
    ((pg_embedded_exec st eng alloc (some q)).2.1 = none →
      (pg_embedded_exec st eng alloc (some q)).1.pg_error_msg = "Out of memory") ∧
    (alloc.resultOk = false →
      (pg_embedded_exec st eng alloc (some q)).2.1 = none ∧
      (pg_embedded_exec st eng alloc (some q)).1.pg_error_msg = "Out of memory") := by
  refine ⟨?_, exec_none_oom st eng alloc q hinit, ?_⟩
  · intro m hro hsr hsc hse
    obtain ⟨ini, tx, msg⟩ := st
    simp only at hinit
    subst hinit
    obtain ⟨ro, co, vo, rk⟩ := alloc
    simp only at hro
    subst hro
    cases tx <;> simp [pg_embedded_exec, hsr, hsc, hse]
  · intro hro
    obtain ⟨ini, tx, msg⟩ := st
    simp only at hinit
    subst hinit
    obtain ⟨ro, co, vo, rk⟩ := alloc
    simp only at hro
    subst hro
    cases tx <;> simp [pg_embedded_exec]

theorem exec_error_handling_witness :
    ((PgState.pg_initialized ⟨true, false, ""⟩ = true) ∧
      (AllocOracle.resultOk allocW = true) ∧
      (EngineBehavior.startRaises { engW with spiExec := .raises "boom" } = none) ∧
      (EngineBehavior.spiConnectOk { engW with spiExec := .raises "boom" } = true) ∧
      (EngineBehavior.spiExec { engW with spiExec := .raises "boom" } = .raises "boom") ∧
      ∃ res,
        (pg_embedded_exec ⟨true, false, ""⟩ { engW with spiExec := .raises "boom" }
            allocW (some "SELECT 1")).2.1 = some res ∧
        res.status = -1 ∧
        (pg_embedded_exec ⟨true, false, ""⟩ { engW with spiExec := .raises "boom" }
            allocW (some "SELECT 1")).1.pg_error_msg = "Query failed: " ++ "boom" ∧
        (pg_embedded_exec ⟨true, false, ""⟩ { engW with spiExec := .raises "boom" }
            allocW (some "SELECT 1")).1.txOpen = false) :=
  ⟨by decide, by decide, by decide, by decide, by decide,
   (exec_error_handling ⟨true, false, ""⟩ { engW with spiExec := .raises "boom" }
      allocW "SELECT 1" (by decide)).1 "boom"
      (by decide) (by decide) (by decide) (by decide)⟩

/-- C2: for every result cell produced by a successful row-returning
`execute`, a SQL NULL (a `none` from `SPI_getvalue`) is stored as the
explicit absence marker `none` in the result grid — never as the
literal text "NULL" and never as the empty string — while every
non-null engine value is deep-copied verbatim, so at every row/column
position a null-valued cell is distinguishable from `some ""` and from
`some "NULL"`. -/
theorem exec_null_cells (st : PgState) (eng : EngineBehavior)
    (alloc : AllocOracle) (q : String) (code : Int) (pr : Nat) (t : SpiTable)
    (hinit : st.pg_initialized = true) (hres : alloc.resultOk = true)
    (hstart : eng.startRaises = none) (hconn : eng.spiConnectOk = true)
    (hexec : eng.spiExec = .returns code pr (some t)) (hpos : 0 < code)
    (hcn : alloc.colnamesOk = true) (hvo : alloc.valuesOk = true)
    (hrows : ∀ i, alloc.rowOk i = true) (hcommit : eng.commitRaises = none) :
    ∃ res, (pg_embedded_exec st eng alloc (some q)).2.1 = some res ∧
      res.values = some (t.rows.map (fun row => some (row.map copyCell))) ∧
      (∀ (r c : Nat) (row : List (Option String)) (v : Option String),
        t.rows[r]? = some row → row[c]? = some v →
        ∃ outRow : List (Option String),
          (t.rows.map (fun row => some (row.map copyCell)))[r]? = some (some outRow) ∧
          outRow[c]? = some (copyCell v) ∧
          (v = none → copyCell v = none) ∧
          (v = none → copyCell v ≠ some "" ∧ copyCell v ≠ some "NULL") ∧
          (∀ s, v = some s → copyCell v = some s)) := by
  have hcode : ¬ (code < 0) := by omega
  have hcopy := copyRows_all_ok alloc hrows t.rows 0
  have hcells : ∀ (r c : Nat) (row : List (Option String)) (v : Option String),
      t.rows[r]? = some row → row[c]? = some v →
      ∃ outRow : List (Option String),
        (t.rows.map (fun row => some (row.map copyCell)))[r]? = some (some outRow) ∧
        outRow[c]? = some (copyCell v) ∧
        (v = none → copyCell v = none) ∧
        (v = none → copyCell v ≠ some "" ∧ copyCell v ≠ some "NULL") ∧
        (∀ s, v = some s → copyCell v = some s) := by
    intro r c row v h1 h2
    refine ⟨row.map copyCell, ?_, ?_, ?_, ?_, ?_⟩
    · simp [List.getElem?_map, h1]
    · simp [List.getElem?_map, h2]
    · intro hv; subst hv; rfl
    · intro hv; subst hv; simp [copyCell]
    · intro s hv; subst hv; rfl
  obtain ⟨ini, tx, msg⟩ := st
  simp only at hinit
  subst hinit
  obtain ⟨ro, co, vo, rk⟩ := alloc
  simp only at hres hcn hvo
  subst hres hcn hvo
  cases tx
  case false =>
    have hout : (pg_embedded_exec ⟨true, false, msg⟩ eng ⟨true, true, true, rk⟩ (some q)).2.1
        = some { status := code, rows := pr, cols := t.colnames.length,
                 colnames := some (copyColnames t.colnames),
                 values := some (t.rows.map (fun row => some (row.map copyCell))) } := by
      simp [pg_embedded_exec, finishExec, hstart, hconn, hexec, hcommit,
            hcode, hpos, hcopy]
    exact ⟨_, hout, rfl, hcells⟩
  case true =>
    have hout : (pg_embedded_exec ⟨true, true, msg⟩ eng ⟨true, true, true, rk⟩ (some q)).2.1
        = some { status := code, rows := pr, cols := t.colnames.length,
                 colnames := some (copyColnames t.colnames),
                 values := some (t.rows.map (fun row => some (row.map copyCell))) } := by
      simp [pg_embedded_exec, finishExec, hstart, hconn, hexec, hcommit,
            hcode, hpos, hcopy]
    exact ⟨_, hout, rfl, hcells⟩

theorem exec_null_cells_witness :
    ((PgState.pg_initialized ⟨true, false, ""⟩ = true) ∧
      (AllocOracle.resultOk allocW = true) ∧
      (EngineBehavior.spiExec engW
        = .returns 5 1 (some ⟨["a"], [[some "x", none]]⟩)) ∧
      (∀ i, AllocOracle.rowOk allocW i = true)) ∧
    (∃ res, (pg_embedded_exec ⟨true, false, ""⟩ engW allocW (some "SELECT 1")).2.1
          = some res ∧
      res.values = some ((SpiTable.rows ⟨["a"], [[some "x", none]]⟩).map
        (fun row => some (row.map copyCell))) ∧
      (∀ (r c : Nat) (row : List (Option String)) (v : Option String),
        (SpiTable.rows ⟨["a"], [[some "x", none]]⟩)[r]? = some row →
        row[c]? = some v →
        ∃ outRow : List (Option String),
          ((SpiTable.rows ⟨["a"], [[some "x", none]]⟩).map
            (fun row => some (row.map copyCell)))[r]? = some (some outRow) ∧
          outRow[c]? = some (copyCell v) ∧
          (v = none → copyCell v = none) ∧
          (v = none → copyCell v ≠ some "" ∧ copyCell v ≠ some "NULL") ∧
          (∀ s, v = some s → copyCell v = some s))) :=
  ⟨⟨by decide, by decide, by decide, fun _ => rfl⟩,
   exec_null_cells ⟨true, false, ""⟩ engW allocW "SELECT 1" 5 1
     ⟨["a"], [[some "x", none]]⟩
     (by decide) (by decide) (by decide) (by decide) (by decide) (by decide)
     (by decide) (by decide) (fun _ => rfl) (by decide)⟩

/-- The version-marker path never collides with the bootstrap scratch
file, whatever the data directory is. -/
theorem version_ne_temp (dd : String) : dd ++ "/PG_VERSION" ≠ bkiTempPath := by
  intro h
  have h2 := congrArg (fun s => s.data.getLast?) h
  simp [bkiTempPath, String.data_append, List.getLast?_append] at h2

/-- Inversion for `create_data_directory`: on success the filesystem
only grows and stdin is untouched. -/
theorem create_data_directory_mono {ora : FsOracle} {pg_data : String}
    {st st' : IState} {ev : List IEvent}
    (h : create_data_directory ora pg_data st = some (st', ev)) :
    st.fs ⊆ st'.fs ∧ st'.stdin = st.stdin := by
  unfold create_data_directory at h
  repeat' split at h
  all_goals simp_all
  all_goals (rcases h with ⟨h1, h2⟩; subst h1; simp [List.subset_insert])

/-- Inversion for `mkdir_fatal`. -/
theorem mkdir_fatal_mono {ora : FsOracle} {p : String}
    {st st' : IState} {ev : List IEvent}
    (h : mkdir_fatal ora p st = some (st', ev)) :
    st.fs ⊆ st'.fs ∧ st'.stdin = st.stdin := by
  unfold mkdir_fatal at h
  repeat' split at h
  all_goals simp_all
  rcases h with ⟨h1, h2⟩; subst h1; simp [List.subset_insert]

/-- Inversion for `mkSubdirs`. -/
theorem mkSubdirs_mono {ora : FsOracle} {pg_data : String} :
    ∀ {ds : List String} {st st' : IState} {ev : List IEvent},
      mkSubdirs ora pg_data ds st = some (st', ev) →
      st.fs ⊆ st'.fs ∧ st'.stdin = st.stdin := by
  intro ds
  induction ds with
  | nil => intro st st' ev h; simp [mkSubdirs] at h; simp [h.1]
  | cons d rest ih =>
    intro st st' ev h
    unfold mkSubdirs at h
    split at h
    · exact absurd h (by simp)
    · rename_i st1 ev1 h1
      split at h
      · exact absurd h (by simp)
      · rename_i st2 ev2 h2
        simp only [Option.some.injEq, Prod.mk.injEq] at h
        obtain ⟨h3, h4⟩ := h
        subst h3
        obtain ⟨m1, s1⟩ := mkdir_fatal_mono h1
        obtain ⟨m2, s2⟩ := ih h2
        exact ⟨m1.trans m2, s2.trans s1⟩

/-- Inversion for `write_version_file`: on success, the version marker
file is among the created paths, the filesystem grows, stdin is
untouched. -/
theorem write_version_file_mono {ora : FsOracle} {dd : String}
    {st st' : IState} {ev : List IEvent}
    (h : write_version_file ora dd st = some (st', ev)) :
    st'.fs = st.fs.insert (dd ++ "/PG_VERSION") ∧ st'.stdin = st.stdin := by
  unfold write_version_file at h
  repeat' split at h
  all_goals simp_all
  rcases h with ⟨h1, h2⟩; subst h1; simp

/-- Inversion for `write_empty_config_file`. -/
theorem write_empty_config_file_mono {ora : FsOracle} {dd : String}
    {st st' : IState} {ev : List IEvent}
    (h : write_empty_config_file ora dd st = some (st', ev)) :
    st'.fs = st.fs.insert (dd ++ "/postgresql.conf") ∧ st'.stdin = st.stdin := by
  unfold write_empty_config_file at h
  repeat' split at h
  all_goals simp_all
  rcases h with ⟨h1, h2⟩; subst h1; simp

/-- Through the bootstrap phase, membership of a path distinct from the
scratch file is preserved, provided the engine's bootstrap preserves
it; stdin is saved and restored, ending where it started. -/
theorem bootstrap_phase_mem {ora : FsOracle} {env : BootEnv} {p : SubstParams}
    {st st' : IState} {ev : List IEvent} {v : String}
    (heng : ∀ f, v ∈ f → v ∈ env.bootstrapFs f)
    (hne : v ≠ bkiTempPath)
    (h : bootstrap_phase ora env p st = some (st', ev)) :
    (v ∈ st.fs → v ∈ st'.fs) ∧ st'.stdin = st.stdin := by
  unfold bootstrap_phase at h
  repeat' split at h
  all_goals simp_all
  rcases h with ⟨h1, h2⟩
  subst h1
  refine ⟨fun hv => ?_, rfl⟩
  exact (List.mem_erase_of_ne hne).mpr (heng _ (List.mem_insert_of_mem hv))

/-- The `PG_VERSION` short-circuit of `pg_embedded_initdb_main`: if the
marker exists, return success immediately, with only a warning and no
filesystem mutation. -/
theorem initdb_short_circuit (st : IState) (ora : FsOracle) (env : BootEnv)
    (dd un : String) (enc loc : Option String)
    (h : (dd ++ "/PG_VERSION") ∈ st.fs) :
    pg_embedded_initdb_main st ora env (some dd) (some un) enc loc
      = (.ok, st, [.warn "database directory already initialized"]) := by
  simp [pg_embedded_initdb_main, h]

/-- C3: `pg_embedded_initdb_main` is idempotent at the filesystem
level.  First, whenever `path/PG_VERSION` already exists, the call
returns success (0) immediately, changes nothing in the filesystem and
surfaces only a warning.  Second, whenever a call returns success —
assuming the engine's bootstrap interpreter preserves the version
marker it is driven to populate — the version marker exists afterwards,
so an immediately repeated call with the same arguments succeeds again
and performs no filesystem mutation at all. -/
theorem initdb_idempotent (st : IState) (ora : FsOracle) (env : BootEnv)
    (dd un : String) (enc loc : Option String) (st' : IState) (ev : List IEvent) :
    ((dd ++ "/PG_VERSION") ∈ st.fs →
      pg_embedded_initdb_main st ora env (some dd) (some un) enc loc
        = (.ok, st, [.warn "database directory already initialized"])) ∧
    ((∀ f, (dd ++ "/PG_VERSION") ∈ f → (dd ++ "/PG_VERSION") ∈ env.bootstrapFs f) →
      pg_embedded_initdb_main st ora env (some dd) (some un) enc loc = (.ok, st', ev) →
      pg_embedded_initdb_main st' ora env (some dd) (some un) enc loc
        = (.ok, st', [.warn "database directory already initialized"])) := by
  refine ⟨initdb_short_circuit st ora env dd un enc loc, ?_⟩
  intro heng hrun
  by_cases hv : (dd ++ "/PG_VERSION") ∈ st.fs
  · rw [initdb_short_circuit st ora env dd un enc loc hv] at hrun
    simp only [Prod.mk.injEq, InitdbRet.ok.sizeOf_spec] at hrun
    obtain ⟨-, h1, h2⟩ :
        (InitdbRet.ok = InitdbRet.ok) ∧ st = st' ∧
          [IEvent.warn "database directory already initialized"] = ev := by
      simpa using hrun
    subst h1
    exact initdb_short_circuit st ora env dd un enc loc hv
  · simp only [pg_embedded_initdb_main, if_neg hv] at hrun
    split at hrun
    · exact absurd hrun (by simp)
    · rename_i st1 ev1 h1
      split at hrun
      · exact absurd hrun (by simp)
      · rename_i st2 ev2 h2
        split at hrun
        · exact absurd hrun (by simp)
        · rename_i st3 ev3 h3
          split at hrun
          · exact absurd hrun (by simp)
          · rename_i st4 ev4 h4
            split at hrun
            · exact absurd hrun (by simp)
            · rename_i st5 ev5 h5
              split at hrun
              · exact absurd hrun (by simp)
              · rename_i st6 ev6 h6
                simp only [Prod.mk.injEq] at hrun
                obtain ⟨-, hst, -⟩ := hrun
                subst hst
                obtain ⟨fs4, -⟩ := write_version_file_mono h4
                have hm4 : (dd ++ "/PG_VERSION") ∈ st4.fs := by
                  rw [fs4]; exact List.mem_insert_self _ _
                obtain ⟨fs5, -⟩ := write_empty_config_file_mono h5
                have hm5 : (dd ++ "/PG_VERSION") ∈ st5.fs := by
                  rw [fs5]; exact List.mem_insert_of_mem hm4
                obtain ⟨hm6, -⟩ :=
                  bootstrap_phase_mem heng (version_ne_temp dd) h6
                exact initdb_short_circuit _ ora env dd un enc loc (hm6 hm5)

/-- A concrete full bootstrap run over an empty filesystem. -/
def initdbRun0 : InitdbRet × IState × List IEvent :=
  pg_embedded_initdb_main ⟨[], .console⟩ oraAllOk envId
    (some "/data") (some "u") none none

theorem initdb_idempotent_witness :
    (pg_embedded_initdb_main ⟨[], .console⟩ oraAllOk envId
        (some "/data") (some "u") none none
      = (.ok, initdbRun0.2.1, initdbRun0.2.2)) ∧
    pg_embedded_initdb_main initdbRun0.2.1 oraAllOk envId
        (some "/data") (some "u") none none
      = (.ok, initdbRun0.2.1, [.warn "database directory already initialized"]) :=
  ⟨by decide,
   (initdb_idempotent ⟨[], .console⟩ oraAllOk envId "/data" "u" none none
      initdbRun0.2.1 initdbRun0.2.2).2 (fun _ h => h) (by decide)⟩

/-- `List.insert` never pushes an element's multiplicity above one. -/
theorem count_insert_le_one {l : List String} {a b : String}
    (h : l.count a ≤ 1) : (l.insert b).count a ≤ 1 := by
  by_cases hb : b ∈ l
  · simpa [List.insert_of_mem hb] using h
  · rw [List.insert_of_not_mem hb, List.count_cons]
    by_cases hab : b = a
    · subst hab
      have h0 : l.count b = 0 := List.count_eq_zero.mpr hb
      simp [h0]
    · simp [hab, h]

/-- Consing a fresh element never pushes a multiplicity above one. -/
theorem count_cons_le_one {l : List String} {a b : String}
    (hb : b ∉ l) (h : l.count a ≤ 1) : (b :: l).count a ≤ 1 := by
  rw [List.count_cons]
  by_cases hab : b = a
  · subst hab
    have h0 : l.count b = 0 := List.count_eq_zero.mpr hb
    simp [h0]
  · simp [hab, h]

/-- Multiplicity bound preserved by `create_data_directory`. -/
theorem create_data_directory_count {ora : FsOracle} {pg_data : String}
    {st st' : IState} {ev : List IEvent} {x : String}
    (h : create_data_directory ora pg_data st = some (st', ev))
    (hc : st.fs.count x ≤ 1) : st'.fs.count x ≤ 1 := by
  unfold create_data_directory at h
  repeat' split at h
  all_goals simp_all
  all_goals (rcases h with ⟨h1, h2⟩; subst h1;
             exact count_cons_le_one (by assumption) hc)

/-- Multiplicity bound preserved by `mkdir_fatal`. -/
theorem mkdir_fatal_count {ora : FsOracle} {p : String}
    {st st' : IState} {ev : List IEvent} {x : String}
    (h : mkdir_fatal ora p st = some (st', ev))
    (hc : st.fs.count x ≤ 1) : st'.fs.count x ≤ 1 := by
  unfold mkdir_fatal at h
  repeat' split at h
  all_goals simp_all
  rcases h with ⟨h1, h2⟩; subst h1
  exact count_cons_le_one (by assumption) hc

/-- Multiplicity bound preserved by `mkSubdirs`. -/
theorem mkSubdirs_count {ora : FsOracle} {pg_data : String} {x : String} :
    ∀ {ds : List String} {st st' : IState} {ev : List IEvent},
      mkSubdirs ora pg_data ds st = some (st', ev) →
      st.fs.count x ≤ 1 → st'.fs.count x ≤ 1 := by
  intro ds
  induction ds with
  | nil =>
    intro st st' ev h hc
    simp [mkSubdirs] at h
    rw [← h.1]; exact hc
  | cons d rest ih =>
    intro st st' ev h hc
    unfold mkSubdirs at h
    split at h
    · exact absurd h (by simp)
    · rename_i st1 ev1 h1
      split at h
      · exact absurd h (by simp)
      · rename_i st2 ev2 h2
        simp only [Option.some.injEq, Prod.mk.injEq] at h
        obtain ⟨h3, -⟩ := h
        subst h3
        exact ih h2 (mkdir_fatal_count h1 hc)

/-- Multiplicity bound preserved by `write_version_file`. -/
theorem write_version_file_count {ora : FsOracle} {dd : String}
    {st st' : IState} {ev : List IEvent} {x : String}
    (h : write_version_file ora dd st = some (st', ev))
    (hc : st.fs.count x ≤ 1) : st'.fs.count x ≤ 1 := by
  obtain ⟨hfs, -⟩ := write_version_file_mono h
  rw [hfs]; exact count_insert_le_one hc

/-- Multiplicity bound preserved by `write_empty_config_file`. -/
theorem write_empty_config_file_count {ora : FsOracle} {dd : String}
    {st st' : IState} {ev : List IEvent} {x : String}
    (h : write_empty_config_file ora dd st = some (st', ev))
    (hc : st.fs.count x ≤ 1) : st'.fs.count x ≤ 1 := by
  obtain ⟨hfs, -⟩ := write_empty_config_file_mono h
  rw [hfs]; exact count_insert_le_one hc

/-- Inversion of the bootstrap phase: on success, the scratch file is
gone afterwards (provided the engine's bootstrap does not increase the
scratch path's multiplicity), stdin ends where it started, and the
emitted events are exactly: write the substituted script, save stdin,
redirect it to the scratch file, run the bootstrap interpreter, restore
stdin, delete the scratch file — in that order. -/
theorem bootstrap_phase_scratch {ora : FsOracle} {env : BootEnv}
    {p : SubstParams} {st st' : IState} {ev : List IEvent}
    (hcnt : ∀ f, (env.bootstrapFs f).count bkiTempPath ≤ f.count bkiTempPath)
    (hle : st.fs.count bkiTempPath ≤ 1)
    (h : bootstrap_phase ora env p st = some (st', ev)) :
    bkiTempPath ∉ st'.fs ∧ st'.stdin = st.stdin ∧
    ∃ lines, ora.readFile bkiSrcPath = some lines ∧
      ev = [.writeScript bkiTempPath (lines.map (substLine p)), .saveStdin,
            .redirectStdin bkiTempPath, .runBootstrap, .restoreStdin,
            .unlinkE bkiTempPath] := by
  unfold bootstrap_phase at h
  split at h
  · exact absurd h (by simp)
  · rename_i lines hlines
    repeat' split at h
    all_goals simp_all
    obtain ⟨h1, h2⟩ := h
    subst h1
    refine ⟨?_, rfl⟩
    have hi : (st.fs.insert bkiTempPath).count bkiTempPath ≤ 1 :=
      count_insert_le_one hle
    have he := hcnt (st.fs.insert bkiTempPath)
    have hb : ((env.bootstrapFs (st.fs.insert bkiTempPath)).erase
        bkiTempPath).count bkiTempPath = 0 := by
      rw [List.count_erase_self]
      omega
    exact List.count_eq_zero.mp hb

/-- C9: on every successful bootstrap run (no pre-existing version
marker, so the catalog bootstrap actually executes), the substituted
script is written to the scratch file and fed to the engine's bootstrap
entry point through a redirected stdin, with the events in exactly the
order: write script, save stdin, redirect stdin, run bootstrap, restore
stdin, delete scratch file; afterwards stdin is back to what it was
before the call and the scratch file is gone — for every engine
bootstrap behaviour (`env.bootstrapFs`, `env.bootstrapOk` are never
inspected between the save and the restore, so this holds whether the
bootstrap succeeded or failed), provided only that the engine does not
itself recreate the scratch file. -/
theorem initdb_bootstrap_channel (st : IState) (ora : FsOracle) (env : BootEnv)
    (dd un : String) (enc loc : Option String) (st' : IState) (ev : List IEvent)
    (hcnt : ∀ f, (env.bootstrapFs f).count bkiTempPath ≤ f.count bkiTempPath)
    (htemp : bkiTempPath ∉ st.fs)
    (hver : (dd ++ "/PG_VERSION") ∉ st.fs)
    (hrun : pg_embedded_initdb_main st ora env (some dd) (some un) enc loc
      = (.ok, st', ev)) :
    st'.stdin = st.stdin ∧ bkiTempPath ∉ st'.fs ∧
    ∃ pre lines, ora.readFile bkiSrcPath = some lines ∧
      ev = pre ++
        [.writeScript bkiTempPath (lines.map (substLine
            { namedatalen := env.namedatalen, sizeofPointer := env.sizeofPointer,
              username := un, encId := env.charToEncoding (enc.getD "UTF8"),
              locale := loc.getD "C" })),
         .saveStdin, .redirectStdin bkiTempPath, .runBootstrap,
         .restoreStdin, .unlinkE bkiTempPath] := by
  simp only [pg_embedded_initdb_main, if_neg hver] at hrun
  split at hrun
  · exact absurd hrun (by simp)
  · rename_i st1 ev1 h1
    split at hrun
    · exact absurd hrun (by simp)
    · rename_i st2 ev2 h2
      split at hrun
      · exact absurd hrun (by simp)
      · rename_i st3 ev3 h3
        split at hrun
        · exact absurd hrun (by simp)
        · rename_i st4 ev4 h4
          split at hrun
          · exact absurd hrun (by simp)
          · rename_i st5 ev5 h5
            split at hrun
            · exact absurd hrun (by simp)
            · rename_i st6 ev6 h6
              simp only [Prod.mk.injEq] at hrun
              obtain ⟨-, hst, hev⟩ := hrun
              subst hst
              obtain ⟨-, s1⟩ := create_data_directory_mono h1
              obtain ⟨-, s2⟩ := mkdir_fatal_mono h2
              obtain ⟨-, s3⟩ := mkSubdirs_mono h3
              obtain ⟨-, s4⟩ := write_version_file_mono h4
              obtain ⟨-, s5⟩ := write_empty_config_file_mono h5
              have c0 : st.fs.count bkiTempPath ≤ 1 := by
                simp [List.count_eq_zero.mpr htemp]
              have c1 := create_data_directory_count h1 c0
              have c2 := mkdir_fatal_count h2 c1
              have c3 := mkSubdirs_count h3 c2
              have c4 := write_version_file_count h4 c3
              have c5 := write_empty_config_file_count h5 c4
              obtain ⟨hnotin, s6, lines, hlines, hev6⟩ :=
                bootstrap_phase_scratch hcnt c5 h6
              refine ⟨?_, hnotin, ev1 ++ ev2 ++ ev3 ++ ev4 ++ ev5, lines, hlines, ?_⟩
              · rw [s6, s5, s4, s3, s2, s1]
              · rw [← hev, hev6]

theorem initdb_bootstrap_channel_witness :
    (bkiTempPath ∉ IState.fs ⟨[], .console⟩) ∧
    ((("/data" : String) ++ "/PG_VERSION") ∉ IState.fs ⟨[], .console⟩) ∧
    (pg_embedded_initdb_main ⟨[], .console⟩ oraAllOk envId
        (some "/data") (some "u") none none
      = (.ok, initdbRun0.2.1, initdbRun0.2.2)) ∧
    (initdbRun0.2.1.stdin = IState.stdin ⟨[], .console⟩ ∧
      bkiTempPath ∉ initdbRun0.2.1.fs ∧
      ∃ pre lines, oraAllOk.readFile bkiSrcPath = some lines ∧
        initdbRun0.2.2 = pre ++
          [.writeScript bkiTempPath (lines.map (substLine
              { namedatalen := envId.namedatalen,
                sizeofPointer := envId.sizeofPointer,
                username := "u",
                encId := envId.charToEncoding ((none : Option String).getD "UTF8"),
                locale := (none : Option String).getD "C" })),
           .saveStdin, .redirectStdin bkiTempPath, .runBootstrap,
           .restoreStdin, .unlinkE bkiTempPath]) :=
  ⟨by decide, by decide, by decide,
   initdb_bootstrap_channel ⟨[], .console⟩ oraAllOk envId "/data" "u" none none
     initdbRun0.2.1 initdbRun0.2.2 (fun _ => Nat.le_refl _)
     (by decide) (by decide) (by decide)⟩

/-- Membership in the column-name free loop: exactly the indices whose
entry is non-null. -/
theorem mem_freeColnames : ∀ (l : List (Option String)) (i : Nat) (a : Alloc),
    a ∈ freeColnames i l ↔
      ∃ j s, l[j]? = some (some s) ∧ a = .colname (i + j) := by
  intro l
  induction l with
  | nil => intro i a; simp [freeColnames]
  | cons x rest ih =>
    intro i a
    cases x with
    | none =>
      simp only [freeColnames, ih]
      constructor
      · rintro ⟨j, s, hj, ha⟩
        exact ⟨j + 1, s, by simpa using hj, by rw [ha]; congr 1; omega⟩
      · rintro ⟨j, s, hj, ha⟩
        cases j with
        | zero => simp at hj
        | succ k =>
          exact ⟨k, s, by simpa using hj, by rw [ha]; congr 1; omega⟩
    | some s0 =>
      simp only [freeColnames, List.mem_cons, ih]
      constructor
      · rintro (rfl | ⟨j, s, hj, ha⟩)
        · exact ⟨0, s0, by simp, by simp⟩
        · exact ⟨j + 1, s, by simpa using hj, by rw [ha]; congr 1; omega⟩
      · rintro ⟨j, s, hj, ha⟩
        cases j with
        | zero => left; simpa using ha
        | succ k =>
          right
          exact ⟨k, s, by simpa using hj, by rw [ha]; congr 1; omega⟩

/-- Membership in the cell free loop of one row. -/
theorem mem_freeCells : ∀ (l : List (Option String)) (r c : Nat) (a : Alloc),
    a ∈ freeCells r c l ↔
      ∃ j s, l[j]? = some (some s) ∧ a = .cell r (c + j) := by
  intro l
  induction l with
  | nil => intro r c a; simp [freeCells]
  | cons x rest ih =>
    intro r c a
    cases x with
    | none =>
      simp only [freeCells, ih]
      constructor
      · rintro ⟨j, s, hj, ha⟩
        exact ⟨j + 1, s, by simpa using hj, by rw [ha]; congr 1; omega⟩
      · rintro ⟨j, s, hj, ha⟩
        cases j with
        | zero => simp at hj
        | succ k =>
          exact ⟨k, s, by simpa using hj, by rw [ha]; congr 1; omega⟩
    | some s0 =>
      simp only [freeCells, List.mem_cons, ih]
      constructor
      · rintro (rfl | ⟨j, s, hj, ha⟩)
        · exact ⟨0, s0, by simp, by simp⟩
        · exact ⟨j + 1, s, by simpa using hj, by rw [ha]; congr 1; omega⟩
      · rintro ⟨j, s, hj, ha⟩
        cases j with
        | zero => left; simpa using ha
        | succ k =>
          right
          exact ⟨k, s, by simpa using hj, by rw [ha]; congr 1; omega⟩

/-- Membership in the row free loop: the row arrays of the non-null
rows, and the non-null cells of those rows. -/
theorem mem_freeRows : ∀ (l : List (Option (List (Option String)))) (r : Nat) (a : Alloc),
    a ∈ freeRows r l ↔
      ∃ j row, l[j]? = some (some row) ∧
        (a = .rowArr (r + j) ∨ a ∈ freeCells (r + j) 0 row) := by
  intro l
  induction l with
  | nil => intro r a; simp [freeRows]
  | cons x rest ih =>
    intro r a
    cases x with
    | none =>
      simp only [freeRows, ih]
      constructor
      · rintro ⟨j, row, hj, ha⟩
        refine ⟨j + 1, row, by simpa using hj, ?_⟩
        have : r + 1 + j = r + (j + 1) := by omega
        rw [← this]; exact ha
      · rintro ⟨j, row, hj, ha⟩
        cases j with
        | zero => simp at hj
        | succ k =>
          refine ⟨k, row, by simpa using hj, ?_⟩
          have : r + 1 + k = r + (k + 1) := by omega
          rw [this]; exact ha
    | some row0 =>
      simp only [freeRows, List.mem_append, List.mem_cons, ih,
                 List.mem_singleton, List.not_mem_nil, or_false]
      constructor
      · rintro ((h | rfl) | ⟨j, row, hj, ha⟩)
        · exact ⟨0, row0, by simp, Or.inr (by simpa using h)⟩
        · exact ⟨0, row0, by simp, Or.inl (by simp)⟩
        · refine ⟨j + 1, row, by simpa using hj, ?_⟩
          have : r + 1 + j = r + (j + 1) := by omega
          rw [← this]; exact ha
      · rintro ⟨j, row, hj, ha⟩
        cases j with
        | zero =>
          simp only [List.getElem?_cons_zero, Option.some.injEq] at hj
          rcases ha with ha | ha
          · left; right; simpa [hj] using ha
          · left; left; rw [hj]; simpa using ha
        | succ k =>
          right
          refine ⟨k, row, by simpa using hj, ?_⟩
          have : r + 1 + k = r + (k + 1) := by omega
          rw [this]; exact ha

/-- The column-name free loop frees each entry at most once. -/
theorem nodup_freeColnames : ∀ (l : List (Option String)) (i : Nat),
    (freeColnames i l).Nodup := by
  intro l
  induction l with
  | nil => intro i; simp [freeColnames]
  | cons x rest ih =>
    intro i
    cases x with
    | none => simpa [freeColnames] using ih (i + 1)
    | some s0 =>
      simp only [freeColnames, List.nodup_cons]
      refine ⟨?_, ih (i + 1)⟩
      rw [mem_freeColnames]
      rintro ⟨j, s, hj, ha⟩
      simp only [Alloc.colname.injEq] at ha
      omega

/-- The cell free loop frees each cell at most once. -/
theorem nodup_freeCells : ∀ (l : List (Option String)) (r c : Nat),
    (freeCells r c l).Nodup := by
  intro l
  induction l with
  | nil => intro r c; simp [freeCells]
  | cons x rest ih =>
    intro r c
    cases x with
    | none => simpa [freeCells] using ih r (c + 1)
    | some s0 =>
      simp only [freeCells, List.nodup_cons]
      refine ⟨?_, ih r (c + 1)⟩
      rw [mem_freeCells]
      rintro ⟨j, s, hj, ha⟩
      simp only [Alloc.cell.injEq] at ha
      omega

/-- Everything the cell loop frees is a cell of row `r`. -/
theorem shape_freeCells {a : Alloc} {l : List (Option String)} {r c : Nat}
    (h : a ∈ freeCells r c l) : ∃ j, a = .cell r j := by
  rw [mem_freeCells] at h
  rcases h with ⟨j, s, -, ha⟩
  exact ⟨c + j, ha⟩

/-- Everything the row loop frees is a row array or a cell with row
index at least `r`. -/
theorem shape_freeRows {a : Alloc} {l : List (Option (List (Option String)))} {r : Nat}
    (h : a ∈ freeRows r l) :
    (∃ j, r ≤ j ∧ a = .rowArr j) ∨ (∃ j c, r ≤ j ∧ a = .cell j c) := by
  rw [mem_freeRows] at h
  rcases h with ⟨j, row, -, ha | ha⟩
  · exact Or.inl ⟨r + j, by omega, ha⟩
  · rcases shape_freeCells ha with ⟨cc, hc⟩
    exact Or.inr ⟨r + j, cc, by omega, hc⟩

/-- The row free loop frees each block at most once. -/
theorem nodup_freeRows : ∀ (l : List (Option (List (Option String)))) (r : Nat),
    (freeRows r l).Nodup := by
  intro l
  induction l with
  | nil => intro r; simp [freeRows]
  | cons x rest ih =>
    intro r
    cases x with
    | none => simpa [freeRows] using ih (r + 1)
    | some row0 =>
      simp only [freeRows]
      refine List.Nodup.append (List.Nodup.append (nodup_freeCells row0 r 0)
        (by simp) ?_) (ih (r + 1)) ?_
      · intro a ha hb
        rcases shape_freeCells ha with ⟨j, rfl⟩
        simp at hb
      · intro a ha hb
        rcases shape_freeRows hb with ⟨j, hj, rfl⟩ | ⟨j, c, hj, rfl⟩ <;>
          simp only [List.mem_append, List.mem_singleton] at ha
        · rcases ha with ha | ha
          · rcases shape_freeCells ha with ⟨k, hk⟩
            cases hk
          · simp only [Alloc.rowArr.injEq] at ha
            omega
        · rcases ha with ha | ha
          · rcases shape_freeCells ha with ⟨k, hk⟩
            rw [hk] at ha
            simp only [Alloc.cell.injEq] at hk
            omega
          · cases ha

/-- Everything the column-name loop frees is a column name. -/
theorem shape_freeColnames {a : Alloc} {l : List (Option String)} {i : Nat}
    (h : a ∈ freeColnames i l) : ∃ j, a = .colname j := by
  rw [mem_freeColnames] at h
  rcases h with ⟨j, s, -, ha⟩
  exact ⟨i + j, ha⟩

/-- `pg_embedded_free_result` frees each block at most once (no double
free), on every possibly partially populated result. -/
theorem nodup_free_result (res : pg_result) :
    (pg_embedded_free_result (some res)).Nodup := by
  obtain ⟨status, rows, cols, cn, vl⟩ := res
  rcases cn with _ | arr <;> rcases vl with _ | rowsL
  · simp [pg_embedded_free_result]
  · simp only [pg_embedded_free_result, List.nil_append]
    refine List.Nodup.append
      (List.Nodup.append (nodup_freeRows rowsL 0) (by simp) ?_) (by simp) ?_
    · intro x hx hb
      rcases shape_freeRows hx with ⟨j, -, rfl⟩ | ⟨j, c, -, rfl⟩ <;> simp at hb
    · intro x hx hb
      simp only [List.mem_singleton] at hb
      subst hb
      simp only [List.mem_append, List.mem_singleton] at hx
      rcases hx with hx | hx
      · rcases shape_freeRows hx with ⟨j, -, h⟩ | ⟨j, c, -, h⟩ <;> cases h
      · cases hx
  · simp only [pg_embedded_free_result, List.append_nil]
    refine List.Nodup.append
      (List.Nodup.append (nodup_freeColnames arr 0) (by simp) ?_) (by simp) ?_
    · intro x hx hb
      rcases shape_freeColnames hx with ⟨j, rfl⟩
      simp at hb
    · intro x hx hb
      simp only [List.mem_singleton] at hb
      subst hb
      simp only [List.mem_append, List.mem_singleton] at hx
      rcases hx with hx | hx
      · rcases shape_freeColnames hx with ⟨j, h⟩
        cases h
      · cases hx
  · simp only [pg_embedded_free_result]
    have hA : (freeColnames 0 arr ++ [Alloc.colnamesArr]).Nodup := by
      refine List.Nodup.append (nodup_freeColnames arr 0) (by simp) ?_
      intro x hx hb
      rcases shape_freeColnames hx with ⟨j, rfl⟩
      simp at hb
    have hB : (freeRows 0 rowsL ++ [Alloc.valuesArr]).Nodup := by
      refine List.Nodup.append (nodup_freeRows rowsL 0) (by simp) ?_
      intro x hx hb
      rcases shape_freeRows hx with ⟨j, -, rfl⟩ | ⟨j, c, -, rfl⟩ <;> simp at hb
    have hAB : (freeColnames 0 arr ++ [Alloc.colnamesArr]).Disjoint
        (freeRows 0 rowsL ++ [Alloc.valuesArr]) := by
      intro x hx hb
      simp only [List.mem_append, List.mem_singleton] at hx hb
      rcases hx with hx | rfl
      · rcases shape_freeColnames hx with ⟨j, rfl⟩
        rcases hb with hb | hb
        · rcases shape_freeRows hb with ⟨k, -, h⟩ | ⟨k, c, -, h⟩ <;> cases h
        · cases hb
      · rcases hb with hb | hb
        · rcases shape_freeRows hb with ⟨k, -, h⟩ | ⟨k, c, -, h⟩ <;> cases h
        · cases hb
    refine List.Nodup.append (List.Nodup.append hA hB hAB) (by simp) ?_
    intro x hx hb
    simp only [List.mem_singleton] at hb
    subst hb
    simp only [List.mem_append, List.mem_singleton] at hx
    rcases hx with (hx | hx) | (hx | hx)
    · rcases shape_freeColnames hx with ⟨j, h⟩
      cases h
    · cases hx
    · rcases shape_freeRows hx with ⟨j, -, h⟩ | ⟨j, c, -, h⟩ <;> cases h
    · cases hx

/-- C10: `pg_embedded_free_result` is total over its public interface:
a NULL result pointer is a no-op (nothing freed), and on every —
possibly partially populated — `pg_result` (null `colnames` or
`values` arrays, null row pointers, null cells, as left by mid-copy
allocation failure) it frees exactly the allocated (non-null) parts,
each exactly once, and never touches an absent part. -/
theorem free_result_total :
    pg_embedded_free_result none = [] ∧
    ∀ (res : pg_result) (a : Alloc),
      (a ∈ pg_embedded_free_result (some res) ↔ allocatedIn res a) ∧
      (pg_embedded_free_result (some res)).Nodup := by
  refine ⟨rfl, ?_⟩
  intro res a
  refine ⟨?_, nodup_free_result res⟩
  obtain ⟨status, rows, cols, cn, vl⟩ := res
  cases a with
  | top =>
    rcases cn with _ | arr <;> rcases vl with _ | rowsL <;>
      simp [pg_embedded_free_result, allocatedIn]
  | colnamesArr =>
    rcases cn with _ | arr <;> rcases vl with _ | rowsL <;>
      simp [pg_embedded_free_result, allocatedIn, mem_freeColnames,
            mem_freeRows, mem_freeCells]
  | valuesArr =>
    rcases cn with _ | arr <;> rcases vl with _ | rowsL <;>
      simp [pg_embedded_free_result, allocatedIn, mem_freeColnames,
            mem_freeRows, mem_freeCells]
  | colname i =>
    rcases cn with _ | arr <;> rcases vl with _ | rowsL <;>
      simp [pg_embedded_free_result, allocatedIn, mem_freeColnames,
            mem_freeRows, mem_freeCells, eq_comm]
  | rowArr r =>
    rcases cn with _ | arr <;> rcases vl with _ | rowsL <;>
      simp [pg_embedded_free_result, allocatedIn, mem_freeColnames,
            mem_freeRows, mem_freeCells, eq_comm]
  | cell r c =>
    rcases cn with _ | arr <;> rcases vl with _ | rowsL <;>
      simp [pg_embedded_free_result, allocatedIn, mem_freeColnames,
            mem_freeRows, mem_freeCells, eq_comm]
    all_goals
      constructor
    all_goals
      first
      | (rintro ⟨j, row, hj, ⟨x, hx⟩, rfl⟩
         exact ⟨row, hj, x, hx⟩)
      | (rintro ⟨row, hj, x, hx⟩
         exact ⟨r, row, hj, ⟨x, hx⟩, rfl⟩)
